import Mathlib

/-!
Verification development for the CannonShooter entity-simulation core.

The JavaScript sources are shallowly embedded over `ℚ` (exact rational
arithmetic standing for the real-number semantics of JS floats).  Places
where the source calls `Math.sqrt` only to compare the result against a
nonnegative constant are embedded as the exactly equivalent squared
comparison.  Calls whose numeric value is irrational (`Math.cos`,
`Math.sin`, `Math.PI`, and the `sqrt` inside vector normalisation) are
parameterised by an `Oracle` of rational-valued stand-ins; every theorem
below is proved for an arbitrary oracle, so no conclusion depends on the
stand-in values.  Purely visual state (geometry, materials, lights, trail
dots, colors) is omitted; fields that the simulation reads or writes are
kept.
-/

namespace CannonShooter

/-- Three-component vector, as used for positions and velocities
(`THREE.Vector3` restricted to the arithmetic the simulation performs). -/
structure Vec3 where
  x : ℚ
  y : ℚ
  z : ℚ
deriving DecidableEq, Repr

def vadd (a b : Vec3) : Vec3 := ⟨a.x + b.x, a.y + b.y, a.z + b.z⟩

def vsub (a b : Vec3) : Vec3 := ⟨a.x - b.x, a.y - b.y, a.z - b.z⟩

def vscale (k : ℚ) (v : Vec3) : Vec3 := ⟨k * v.x, k * v.y, k * v.z⟩

def lengthSq (v : Vec3) : ℚ := v.x * v.x + v.y * v.y + v.z * v.z

/-- Embedding of `clamp` from `utils.js`:
`Math.max(min, Math.min(max, value))`, written with explicit conditionals.
The inner conditional is `Math.min(max, value)`, the outer one
`Math.max(min, ·)`; in particular, for a degenerate range with `lo > hi`
the result is `lo`, exactly as in the source. -/
def clamp (value lo hi : ℚ) : ℚ :=
  let m := if value ≤ hi then value else hi
  if m ≤ lo then lo else m

/-- Embedding of `sphereVsAABB` from `collision.js`: clamp the sphere center
component-wise into the box, then compare the squared distance with the
squared radius. -/
def sphereVsAABB (center : Vec3) (radius : ℚ) (mn mx : Vec3) : Bool :=
  let closestX := clamp center.x mn.x mx.x
  let closestY := clamp center.y mn.y mx.y
  let closestZ := clamp center.z mn.z mx.z
  let dx := center.x - closestX
  let dy := center.y - closestY
  let dz := center.z - closestZ
  decide (dx * dx + dy * dy + dz * dz ≤ radius * radius)

/-- Spec-side definition: the point of the box `[mn, mx]` closest to `c`,
obtained by clamping `c` component-wise (the algorithm the spec describes). -/
def closestPointOnAABB (c mn mx : Vec3) : Vec3 :=
  ⟨clamp c.x mn.x mx.x, clamp c.y mn.y mx.y, clamp c.z mn.z mx.z⟩

/-- Spec-side definition: squared Euclidean distance between two points. -/
def distSq (a b : Vec3) : ℚ := lengthSq (vsub a b)

/-- Projectile owner kind, the `type` string of `projectile.js`. -/
inductive ProjType where
  | player
  | enemy
  | boss
deriving DecidableEq, Repr

/-- Simulation state of one projectile (`projectile.js`).  The mesh, light,
glow and trail bookkeeping are visual only and omitted; `position` is
`mesh.position`. -/
structure Projectile where
  position : Vec3
  velocity : Vec3
  birthTime : ℚ
  alive : Bool
  radius : ℚ
  type : ProjType
deriving DecidableEq, Repr

def GRAVITY : Vec3 := ⟨0, -(49/5), 0⟩

def MAX_LIFETIME : ℚ := 5

def PROJECTILE_RADIUS : ℚ := 3/10

/-- Embedding of `spawnProjectile`: the new projectile record pushed onto the
`projectiles` array (visual fields omitted).  `ct` is `performance.now()/1000`. -/
def spawnProjectile (origin direction : Vec3) (speed : ℚ) (ty : ProjType) (ct : ℚ) :
    Projectile :=
  { position := origin
    velocity := vscale speed direction
    birthTime := ct
    alive := true
    radius := if ty = ProjType.boss then PROJECTILE_RADIUS * (5/2) else PROJECTILE_RADIUS
    type := ty }

/-- The integration step of `updateProjectiles` (projectile.js lines 141-145):
gravity is added to the velocity first, then the updated velocity moves the
position (semi-implicit Euler). -/
def integrateProjectile (dt : ℚ) (p : Projectile) : Projectile :=
  let v := vadd p.velocity (vscale dt GRAVITY)
  { p with velocity := v, position := vadd p.position (vscale dt v) }

/-- Embedding of the main loop of `updateProjectiles`.  The JS loop walks the
array from the last index down to 0 and removes elements with `splice(i, 1)`;
every element is visited exactly once and relative order is preserved, so the
loop is this recursion over the list.  Dead (`!alive`) projectiles are
skipped untouched; live ones are integrated and then dropped when below the
ground plane or past the maximum lifetime.  Fading-trail bookkeeping is
visual and omitted. -/
def updateProjectiles (currentTime dt : ℚ) : List Projectile → List Projectile
  | [] => []
  | p :: rest =>
    if p.alive = false then
      p :: updateProjectiles currentTime dt rest
    else
      let q := integrateProjectile dt p
      if q.position.y < -1 ∨ currentTime - q.birthTime > MAX_LIFETIME then
        updateProjectiles currentTime dt rest
      else
        q :: updateProjectiles currentTime dt rest

/-- Embedding of `despawnProjectile`: remove the projectile at `index` if the
index is in bounds, otherwise do nothing (the scene/trail work is visual). -/
def despawnProjectile (index : ℤ) (ps : List Projectile) : List Projectile :=
  if 0 ≤ index ∧ index < (ps.length : ℤ) then ps.eraseIdx index.toNat else ps

/-- Replace the element at one position of a list, leaving everything else
unchanged (no-op when the index is past the end). -/
def modifyAt {α : Type} (f : α → α) : ℕ → List α → List α
  | _, [] => []
  | 0, a :: rest => f a :: rest
  | n + 1, a :: rest => a :: modifyAt f n rest

/-- Embedding of `killProjectile`: flag the projectile at `index` as dead if
the index is in bounds, otherwise do nothing. -/
def killProjectile (index : ℤ) (ps : List Projectile) : List Projectile :=
  if 0 ≤ index ∧ index < (ps.length : ℤ) then
    modifyAt (fun p => { p with alive := false }) index.toNat ps
  else ps

/-- Claim C1 support: the body of `updateProjectiles` as a per-element map,
used to state that every live projectile is integrated. -/
def updateProjectileEntry (currentTime dt : ℚ) (p : Projectile) : Option Projectile :=
  if p.alive = false then some p
  else
    let q := integrateProjectile dt p
    if q.position.y < -1 ∨ currentTime - q.birthTime > MAX_LIFETIME then none
    else some q

/-! Game configuration and firing (`main.js`), charging input (`input.js`). -/
def MIN_POWER : ℚ := 10

def MAX_POWER : ℚ := 40

/-- The speed computation of `fireCannon` (main.js lines 413-422). -/
def fireSpeed (charge : ℚ) : ℚ := MIN_POWER + (MAX_POWER - MIN_POWER) * charge

/-- Embedding of `fireCannon`: spawn a player projectile at the muzzle with
the charge-dependent speed (the new record is pushed onto the array). -/
def fireCannon (muzzle direction : Vec3) (charge ct : ℚ) (ps : List Projectile) :
    List Projectile :=
  ps ++ [spawnProjectile muzzle direction (fireSpeed charge) ProjType.player ct]

def MAX_CHARGE_TIME : ℚ := 3/2

/-- Module-level charging state of `input.js` (key/camera state is external
input and not part of the charge logic). -/
structure InputState where
  isCharging : Bool
  chargeStartTime : ℚ
  currentCharge : ℚ
deriving DecidableEq, Repr

/-- The initial values of the `input.js` module variables. -/
def initInputState : InputState :=
  { isCharging := false, chargeStartTime := 0, currentCharge := 0 }

/-- Embedding of `onMouseDown` (left button): start charging. -/
def onMouseDown (ct : ℚ) (s : InputState) : InputState :=
  { s with isCharging := true, chargeStartTime := ct, currentCharge := 0 }

/-- Embedding of `onMouseUp` (left button while charging): stop charging. -/
def onMouseUp (s : InputState) : InputState :=
  { s with isCharging := false }

/-- Embedding of `updateCharging`: while charging, the charge fraction is the
elapsed time over `MAX_CHARGE_TIME` clamped into `[0, 1]`; the function
returns the current charge either way. -/
def updateCharging (ct : ℚ) (s : InputState) : InputState × ℚ :=
  if s.isCharging then
    let c := clamp ((ct - s.chargeStartTime) / MAX_CHARGE_TIME) 0 1
    ({ s with currentCharge := c }, c)
  else (s, s.currentCharge)

/-- Embedding of `checkFire`: when not charging and a positive charge is
pending, consume and return it. -/
def checkFire (s : InputState) : InputState × Option ℚ :=
  if s.isCharging = false ∧ s.currentCharge > 0 then
    ({ s with currentCharge := 0 }, some s.currentCharge)
  else (s, none)

/-- Embedding of `resetCharge`. -/
def resetCharge (s : InputState) : InputState :=
  { s with isCharging := false, currentCharge := 0 }

/-- The operations that can touch the `input.js` charging state; a state is
reachable when it arises from the initial state by a sequence of these. -/
inductive InputOp where
  | mouseDown (ct : ℚ)
  | mouseUp
  | charging (ct : ℚ)
  | fireCheck
  | reset
deriving DecidableEq, Repr

def applyInputOp (s : InputState) : InputOp → InputState
  | InputOp.mouseDown ct => onMouseDown ct s
  | InputOp.mouseUp => onMouseUp s
  | InputOp.charging ct => (updateCharging ct s).1
  | InputOp.fireCheck => (checkFire s).1
  | InputOp.reset => resetCharge s

def runInputOps (ops : List InputOp) : InputState :=
  ops.foldl applyInputOp initInputState

/-- Modelled from the spec: the sources under `src/` contain no boss target
(`projectile.js` knows a boss projectile type and a boss laser, but
`targets.js` and `main.js` have no boss target, `isBoss` or `maxHits`).
The spec says "the boss requires `maxHits` confirmed hits (default 4) — each
hit increments `hits`, and destruction triggers only when
`hits >= maxHits`". -/
structure BossState where
  hits : ℕ
  maxHits : ℕ
  destroyed : Bool
deriving DecidableEq, Repr

/-- Modelled from the spec: a fresh boss with the default `maxHits` of 4. -/
def initBossState : BossState := { hits := 0, maxHits := 4, destroyed := false }

/-- Modelled from the spec: one confirmed hit on the boss increments `hits`
and triggers destruction exactly when `hits >= maxHits`. -/
def bossConfirmedHit (b : BossState) : BossState :=
  let h := b.hits + 1
  { b with hits := h, destroyed := decide (b.maxHits ≤ h) }

def sampleProjectile : Projectile :=
  { position := ⟨0, 100, 0⟩, velocity := ⟨0, 0, 0⟩, birthTime := 0,
    alive := true, radius := PROJECTILE_RADIUS, type := ProjType.player }

/-- Rational-valued stand-ins for the irrational library functions the source
calls (`Math.cos`, `Math.sin`, `Math.PI`, and the square root used inside
`THREE.Vector3.normalize`).  Every theorem holds for an arbitrary oracle. -/
structure Oracle where
  cosQ : ℚ → ℚ
  sinQ : ℚ → ℚ
  sqrtQ : ℚ → ℚ
  piQ : ℚ

/-- Embedding of `THREE.Vector3.normalize`: divide by the length, or by 1
when the length is zero. -/
def jsNormalize (o : Oracle) (v : Vec3) : Vec3 :=
  let len := o.sqrtQ (lengthSq v)
  vscale (1 / (if len = 0 then 1 else len)) v

def TARGET_HEIGHT : ℚ := 1/2

/-- Simulation state of one guard-ship target (`targets.js`).  The ship
geometry and materials are visual; `pos` is `mesh.position`, `rotY` is
`mesh.rotation.y`, `scale` the uniform `mesh.scale`.  `localMin`/`localMax`
abstract the mesh shape: `getAABBFromMesh` is modelled as the box
`[pos + localMin, pos + localMax]`.  `destroyed` starts `false` (the JS field
is `undefined`, which is falsy) and is set only by `onTargetHit`. -/
structure Target where
  pos : Vec3
  rotY : ℚ
  scale : ℚ
  isMoving : Bool
  treasureX : ℚ
  treasureZ : ℚ
  orbitRadius : ℚ
  orbitAngle : ℚ
  orbitSpeed : ℚ
  hitTime : ℚ
  hits : ℕ
  detectionRadius : ℚ
  shootCooldown : ℚ
  shootInterval : ℚ
  destroyed : Bool
  localMin : Vec3
  localMax : Vec3
deriving DecidableEq, Repr

/-- The orbit-motion block of `updateTargets`: advance the angle by
`orbitSpeed * deltaTime` and recompute the position on the circle around the
guarded treasure; the ship faces the tangent (`angle + π/2`). -/
def moveTarget (o : Oracle) (dt : ℚ) (t : Target) : Target :=
  let ang := t.orbitAngle + t.orbitSpeed * dt
  { t with
    orbitAngle := ang
    pos := ⟨t.treasureX + o.cosQ ang * t.orbitRadius, TARGET_HEIGHT,
            t.treasureZ + o.sinQ ang * t.orbitRadius⟩
    rotY := ang + o.piQ / 2 }

/-- The cooldown decrement of `updateTargets`: the cooldown shrinks by
`deltaTime` only while it is positive. -/
def cooldownTick (dt : ℚ) (t : Target) : Target :=
  if t.shootCooldown > 0 then { t with shootCooldown := t.shootCooldown - dt } else t

/-- The in-range test of `updateTargets`:
`Math.sqrt(dx*dx + dz*dz) < detectionRadius`, embedded as the exactly
equivalent squared comparison (the radius is nonnegative). -/
def inDetectionRange (player : Vec3) (t : Target) : Bool :=
  decide ((player.x - t.pos.x) * (player.x - t.pos.x) +
    (player.z - t.pos.z) * (player.z - t.pos.z) <
      t.detectionRadius * t.detectionRadius)

/-- The aim computation of `updateTargets`: normalise the horizontal
direction to the player, raise `y` to 0.2 for a ballistic arc, and normalise
again. -/
def fireDirection (o : Oracle) (player : Vec3) (t : Target) : Vec3 :=
  let dir0 := jsNormalize o ⟨player.x - t.pos.x, 0, player.z - t.pos.z⟩
  jsNormalize o ⟨dir0.x, 1/5, dir0.z⟩

/-- The enemy-shooting block of `updateTargets`: decrement the cooldown while
positive; when the player is inside the detection radius and the cooldown
has reached zero, emit one spawn request from a point 0.6 above the hull and
reset the cooldown to `shootInterval`.  The returned option is the
`shootCallback` request (cannon position, direction). -/
def shootStep (o : Oracle) (dt : ℚ) (pp : Option Vec3) (t : Target) :
    Target × Option (Vec3 × Vec3) :=
  match pp with
  | none => (t, none)
  | some player =>
    if t.isMoving then
      let t1 := cooldownTick dt t
      if inDetectionRange player t1 ∧ t1.shootCooldown ≤ 0 then
        ({ t1 with shootCooldown := t1.shootInterval },
          some (⟨t1.pos.x, t1.pos.y + 3/5, t1.pos.z⟩, fireDirection o player t1))
      else (t1, none)
    else (t, none)

/-- The hit-animation block of `updateTargets`: for 0.3 s after a hit the
ship pulses in scale (the color flash is purely a material effect and
omitted); afterwards scale and `hitTime` are reset. -/
def hitAnimStep (o : Oracle) (ct : ℚ) (t : Target) : Target :=
  if t.hitTime > 0 then
    let ts := ct - t.hitTime
    if ts < 3/10 then
      { t with scale := 1 + o.sinQ (ts / (3/10) * o.piQ) * (3/10) }
    else { t with scale := 1, hitTime := 0 }
  else t

/-- One loop iteration of `updateTargets` for a single target: destroyed
targets are skipped entirely; otherwise motion, fire control and the hit
animation run in source order. -/
def updateTarget1 (o : Oracle) (ct dt : ℚ) (pp : Option Vec3) (t : Target) :
    Target × Option (Vec3 × Vec3) :=
  if t.destroyed then (t, none)
  else
    let t1 := if t.isMoving then moveTarget o dt t else t
    let r := shootStep o dt pp t1
    (hitAnimStep o ct r.1, r.2)

/-- Embedding of `updateTargets` over the target array, collecting the spawn
requests the `shootCallback` would receive, in order. -/
def updateTargets (o : Oracle) (ct dt : ℚ) (pp : Option Vec3) :
    List Target → List Target × List (Vec3 × Vec3)
  | [] => ([], [])
  | t :: rest =>
    let r := updateTarget1 o ct dt pp t
    let rr := updateTargets o ct dt pp rest
    (r.1 :: rr.1, r.2.toList ++ rr.2)

/-- Embedding of `hitTarget` (targets.js lines 429-432): record the hit time
and increment the hit counter. -/
def hitTarget (ct : ℚ) (t : Target) : Target :=
  { t with hitTime := ct, hits := t.hits + 1 }

/-- Embedding of `onTargetHit` (main.js lines 511-536): increment the score
and mark the target destroyed and no longer moving (scene removal and
disposal are visual). -/
def onTargetHit (score : ℕ) (t : Target) : ℕ × Target :=
  (score + 1, { t with isMoving := false, destroyed := true })

/-- One frame of the target simulation, as seen by a single target: the
current time, the time step, and the player position (if any) for that
frame. -/
structure Tick where
  ct : ℚ
  dt : ℚ
  pp : Option Vec3
deriving DecidableEq

/-- Run `updateTarget1` over a sequence of frames, counting how many shots
the target fires. -/
def runTargetTicks (o : Oracle) : List Tick → Target → Target × ℕ
  | [], t => (t, 0)
  | k :: rest, t =>
    let r := updateTarget1 o k.ct k.dt k.pp t
    let rr := runTargetTicks o rest r.1
    (rr.1, (if r.2.isSome then 1 else 0) + rr.2)

/-- Total wall-clock time covered by a sequence of frames. -/
def sumDts : List Tick → ℚ
  | [] => 0
  | k :: rest => k.dt + sumDts rest

def sampleOracle : Oracle :=
  { cosQ := fun _ => 0, sinQ := fun _ => 0, sqrtQ := fun _ => 0, piQ := 0 }

def sampleTarget : Target :=
  { pos := ⟨8, TARGET_HEIGHT, 0⟩, rotY := 0, scale := 1, isMoving := true,
    treasureX := 0, treasureZ := 0, orbitRadius := 8, orbitAngle := 0,
    orbitSpeed := 3/10, hitTime := 0, hits := 0, detectionRadius := 15,
    shootCooldown := 7, shootInterval := 7, destroyed := false,
    localMin := ⟨-1, -1, -1⟩, localMax := ⟨1, 1, 1⟩ }

/-- The state mutation of `onTargetHit` on the target itself: stop moving and
mark destroyed (the score increment is applied by the caller). -/
def destroyTarget (t : Target) : Target :=
  { t with isMoving := false, destroyed := true }

/-- Geometric test of one projectile against one target:
`sphereVsAABB(projPos, proj.radius, bounds.min, bounds.max)` where
`getAABBFromMesh(target.mesh)` is modelled as `[pos + localMin, pos + localMax]`. -/
def targetHitBy (pos : Vec3) (r : ℚ) (t : Target) : Bool :=
  sphereVsAABB pos r (vadd t.pos t.localMin) (vadd t.pos t.localMax)

/-- A target counts for the inner collision loop when it is not destroyed and
geometrically intersects the projectile. -/
def hittable (pos : Vec3) (r : ℚ) (t : Target) : Bool :=
  !t.destroyed && targetHitBy pos r t

/-- Number of non-destroyed targets intersecting the projectile. -/
def countHittable (pos : Vec3) (r : ℚ) : List Target → ℕ
  | [] => 0
  | t :: rest => (if hittable pos r t then 1 else 0) + countHittable pos r rest

/-- Index of the first non-destroyed intersecting target (list length if
none). -/
def firstHittableIdx (pos : Vec3) (r : ℚ) : List Target → ℕ
  | [] => 0
  | t :: rest => if hittable pos r t then 0 else firstHittableIdx pos r rest + 1

/-- The inner loop of `checkCollisions` for one player projectile: walk the
targets in registry order, skip destroyed ones, and on the first positive
`sphereVsAABB` test apply `onTargetHit`'s target mutation and stop (`break`);
`none` when no target is hit.  Later targets are returned untouched. -/
def resolvePlayerHit (pos : Vec3) (r : ℚ) : List Target → Option (List Target)
  | [] => none
  | t :: rest =>
    if t.destroyed then (resolvePlayerHit pos r rest).map (t :: ·)
    else if targetHitBy pos r t then some (destroyTarget t :: rest)
    else (resolvePlayerHit pos r rest).map (t :: ·)

/-- Embedding of the projectile loop of `checkCollisions` (main.js lines
441-498).  The JS loop runs indices from high to low, so the tail of the
list (the higher indices) is processed first; the Bool is the early
`return` taken when the player dies.  In the hit branches,
`killProjectile(i)` marks the projectile dead and `despawnProjectile(i, scene)`
then removes that same element, so the net effect on the list is dropping
the projectile.  Enemy projectiles are tested against the player with
`distance < 2.5`, embedded as the equivalent squared comparison.  A `boss`
projectile matches neither `type` branch and is left untouched. -/
def checkCollisionsAux (pp : Vec3) :
    List Projectile → List Target → ℕ → ℤ →
      List Projectile × List Target × ℕ × ℤ × Bool
  | [], ts, sc, hp => ([], ts, sc, hp, false)
  | p :: rest, ts, sc, hp =>
    let r := checkCollisionsAux pp rest ts sc hp
    match r with
    | (rest1, ts1, sc1, hp1, dead) =>
      if dead then (p :: rest1, ts1, sc1, hp1, true)
      else if p.alive = false then (p :: rest1, ts1, sc1, hp1, false)
      else
        match p.type with
        | ProjType.player =>
          match resolvePlayerHit p.position p.radius ts1 with
          | some ts2 => (rest1, ts2, sc1 + 1, hp1, false)
          | none => (p :: rest1, ts1, sc1, hp1, false)
        | ProjType.enemy =>
          if distSq p.position pp < 25/4 then
            if hp1 - 1 ≤ 0 then (rest1, ts1, sc1, hp1 - 1, true)
            else (rest1, ts1, sc1, hp1 - 1, false)
          else (p :: rest1, ts1, sc1, hp1, false)
        | ProjType.boss => (p :: rest1, ts1, sc1, hp1, false)

/-- Reason recorded for the end of a round. -/
inductive GameOverReason where
  | timeout
  | collision
  | hit
deriving DecidableEq, Repr

/-- Simulation state of one treasure chest (`treasures.js`); the floating /
glow / sparkle animation is visual, only the fields the logic reads are
kept. -/
structure Treasure where
  x : ℚ
  z : ℚ
  floatTime : ℚ
  rotY : ℚ
  isMegaChest : Bool
  collected : Bool
deriving DecidableEq, Repr

/-- Embedding of `updateTreasures`: advance the float clock and rotation of
every uncollected chest (the rest of the body only animates materials). -/
def updateTreasures (dt : ℚ) (trs : List Treasure) : List Treasure :=
  trs.map fun tr =>
    if tr.collected then tr
    else { tr with
      floatTime := tr.floatTime + dt
      rotY := tr.rotY + dt * (if tr.isMegaChest then 3/10 else 1/2) }

/-- Embedding of `checkTreasureCollection` (first uncollected chest with
`distance < 2.5` of the player, squared comparison) combined with
`collectTreasure` (mark it collected); `none` when nothing is in reach. -/
def collectStep (pp : Vec3) : List Treasure → Option (List Treasure)
  | [] => none
  | tr :: rest =>
    if tr.collected then (collectStep pp rest).map (tr :: ·)
    else if (tr.x - pp.x) * (tr.x - pp.x) + (tr.z - pp.z) * (tr.z - pp.z) < 25/4 then
      some ({ tr with collected := true } :: rest)
    else (collectStep pp rest).map (tr :: ·)

/-- The module-level game state of `main.js` that the per-frame logic reads
and writes (HUD, scene and camera handles are visual collaborators). -/
structure GameState where
  input : InputState
  projectiles : List Projectile
  targets : List Target
  treasures : List Treasure
  score : ℕ
  playerHealth : ℤ
  gameActive : Bool
  gameOverReason : GameOverReason
deriving DecidableEq, Repr

/-- Embedding of `checkCollisions`: run the projectile loop; when the player
died, `endGame()` recorded reason 'hit' and cleared `gameActive`. -/
def checkCollisions (pp : Vec3) (s : GameState) : GameState :=
  let r := checkCollisionsAux pp s.projectiles s.targets s.score s.playerHealth
  match r with
  | (ps, ts, sc, hp, dead) =>
    if dead then
      { s with projectiles := ps, targets := ts, score := sc, playerHealth := hp,
               gameOverReason := GameOverReason.hit, gameActive := false }
    else
      { s with projectiles := ps, targets := ts, score := sc, playerHealth := hp }

/-- The loop body of `checkPlayerShipCollisions`: some non-destroyed target
within `collisionRadius = 3.5` of the player in the horizontal plane
(`distance < 3.5`, squared comparison). -/
def anyShipCollision (pp : Vec3) (ts : List Target) : Bool :=
  ts.any fun t => !t.destroyed &&
    decide ((pp.x - t.pos.x) * (pp.x - t.pos.x) +
      (pp.z - t.pos.z) * (pp.z - t.pos.z) < (7/2) * (7/2))

/-- Embedding of `checkPlayerShipCollisions`: on a hull collision, record
reason 'collision' and end the game. -/
def checkPlayerShipCollisions (pp : Vec3) (s : GameState) : GameState :=
  if anyShipCollision pp s.targets then
    { s with gameOverReason := GameOverReason.collision, gameActive := false }
  else s

/-- The external per-frame reads of `updateGame`: the muzzle position and
firing direction of the cannon (owned by `cannon.js`, after
`updateShipMovement`/`updateAiming`/`setYawPitch`), and the player-ship
position `cannonGroup.position`. -/
structure FrameInput where
  muzzle : Vec3
  fireDir : Vec3
  playerPos : Vec3
deriving DecidableEq, Repr

def ENEMY_PROJECTILE_SPEED : ℚ := 20

/-- Embedding of `updateGame` (main.js lines 362-408) in source order:
charging update, `checkFire`/`fireCannon`, `updateProjectiles`,
`updateTargets` (whose `shootEnemyProjectile` callback pushes enemy
projectiles at speed 20), `updateTreasures` and treasure collection
(+10 score), `checkCollisions`, then `checkPlayerShipCollisions`.
`updateShipMovement`, `updateAiming`/`setYawPitch`, the power-bar/water/wake
updates and the HUD writes act only on external visual collaborators and are
summarised by `inp`. -/
def updateGame (o : Oracle) (inp : FrameInput) (ct dt : ℚ) (s : GameState) :
    GameState :=
  let r1 := updateCharging ct s.input
  let r2 := checkFire r1.1
  let ps1 := match r2.2 with
    | some c => if c > 0 then fireCannon inp.muzzle inp.fireDir c ct s.projectiles
                else s.projectiles
    | none => s.projectiles
  let ps2 := updateProjectiles ct dt ps1
  let rt := updateTargets o ct dt (some inp.playerPos) s.targets
  let ps3 := ps2 ++ rt.2.map fun f =>
    spawnProjectile f.1 f.2 ENEMY_PROJECTILE_SPEED ProjType.enemy ct
  let trs1 := updateTreasures dt s.treasures
  let rc := match collectStep inp.playerPos trs1 with
    | some trs => (trs, s.score + 10)
    | none => (trs1, s.score)
  let s1 : GameState :=
    { s with input := r2.1, projectiles := ps3, targets := rt.1,
             treasures := rc.1, score := rc.2 }
  checkPlayerShipCollisions inp.playerPos (checkCollisions inp.playerPos s1)

def samplePlayerProjectile : Projectile :=
  { position := ⟨0, 0, 0⟩, velocity := ⟨0, 0, 0⟩, birthTime := 0,
    alive := true, radius := 1, type := ProjType.player }

def overlappingTargets : List Target :=
  [{ sampleTarget with pos := ⟨0, 0, 0⟩ }, { sampleTarget with pos := ⟨1/2, 0, 0⟩ }]

def sampleFrameInput : FrameInput :=
  { muzzle := ⟨0, 10, 0⟩, fireDir := ⟨1, 0, 0⟩, playerPos := ⟨0, 0, 0⟩ }

def sampleInputCharged : InputState :=
  { isCharging := false, chargeStartTime := 0, currentCharge := 1 }

def spawnTickTarget : Target :=
  { sampleTarget with treasureX := 40 }

def spawnTickState : GameState :=
  { input := sampleInputCharged, projectiles := [],
    targets := [spawnTickTarget], treasures := [], score := 0,
    playerHealth := 4, gameActive := true,
    gameOverReason := GameOverReason.timeout }

theorem updateProjectiles_eq_filterMap (currentTime dt : ℚ) (ps : List Projectile) :
    updateProjectiles currentTime dt ps = ps.filterMap (updateProjectileEntry currentTime dt) := by
  induction ps with
  | nil => rfl
  | cons p rest ih =>
    simp only [updateProjectiles, updateProjectileEntry, List.filterMap_cons]
    by_cases hp : p.alive = false
    · simp [hp, ih]
    · simp only [hp, if_false]
      by_cases hq : (integrateProjectile dt p).position.y < -1 ∨
          currentTime - (integrateProjectile dt p).birthTime > MAX_LIFETIME
      · simp [hq, ih]
      · simp [hq, ih]

/-- C1: `sphereVsAABB` returns true iff the squared distance from the center
to the component-wise clamped point is at most the squared radius, and on the
two concrete boxes of the spec it returns false resp. true (the boundary case
`distance² = radius²` counting as a collision). -/
theorem sphereVsAABB_spec :
    (∀ (center : Vec3) (radius : ℚ) (mn mx : Vec3),
        sphereVsAABB center radius mn mx = true ↔
          distSq center (closestPointOnAABB center mn mx) ≤ radius * radius) ∧
    sphereVsAABB ⟨0, 0, 0⟩ 1 ⟨2, -1, -1⟩ ⟨4, 1, 1⟩ = false ∧
    sphereVsAABB ⟨0, 0, 0⟩ 1 ⟨1, -1, -1⟩ ⟨4, 1, 1⟩ = true := by
  refine ⟨fun center radius mn mx => ?_, by norm_num [sphereVsAABB, clamp],
    by norm_num [sphereVsAABB, clamp]⟩
  simp only [sphereVsAABB, distSq, closestPointOnAABB, lengthSq, vsub,
    decide_eq_true_eq]

/-- C2: one physics update step is semi-implicit Euler — the velocity is
incremented by `gravity * dt` first and the position then moves by the
updated velocity times `dt` — and `updateProjectiles` applies exactly this
step to every live projectile (dead ones are skipped untouched). -/
theorem updateProjectiles_semi_implicit_euler :
    (∀ (dt : ℚ) (p : Projectile),
        (integrateProjectile dt p).velocity = vadd p.velocity (vscale dt GRAVITY) ∧
        (integrateProjectile dt p).position =
          vadd p.position (vscale dt (vadd p.velocity (vscale dt GRAVITY)))) ∧
    (∀ (currentTime dt : ℚ) (ps : List Projectile),
        updateProjectiles currentTime dt ps =
          ps.filterMap (updateProjectileEntry currentTime dt)) := by
  exact ⟨fun dt p => ⟨rfl, rfl⟩, updateProjectiles_eq_filterMap⟩

lemma clamp_nonneg_le_one (v : ℚ) : 0 ≤ clamp v 0 1 ∧ clamp v 0 1 ≤ 1 := by
  simp only [clamp]
  split_ifs <;> refine ⟨by linarith, by linarith⟩

lemma charge_bounds_invariant (ops : List InputOp) :
    0 ≤ (runInputOps ops).currentCharge ∧ (runInputOps ops).currentCharge ≤ 1 := by
  suffices h : ∀ (ops : List InputOp) (s : InputState),
      0 ≤ s.currentCharge ∧ s.currentCharge ≤ 1 →
      0 ≤ (ops.foldl applyInputOp s).currentCharge ∧
        (ops.foldl applyInputOp s).currentCharge ≤ 1 by
    exact h ops initInputState (by norm_num [initInputState])
  intro ops
  induction ops with
  | nil => intro s hs; simpa using hs
  | cons op rest ih =>
    intro s hs
    refine ih (applyInputOp s op) ?_
    cases op with
    | mouseDown ct => simp [applyInputOp, onMouseDown]
    | mouseUp => simpa [applyInputOp, onMouseUp] using hs
    | charging ct =>
      by_cases hc : s.isCharging
      · simpa [applyInputOp, updateCharging, hc] using
          clamp_nonneg_le_one ((ct - s.chargeStartTime) / MAX_CHARGE_TIME)
      · simpa [applyInputOp, updateCharging, hc] using hs
    | fireCheck =>
      by_cases hf : s.isCharging = false ∧ s.currentCharge > 0
      · simp [applyInputOp, checkFire, hf]
      · simpa [applyInputOp, checkFire, hf] using hs
    | reset => simp [applyInputOp, resetCharge]

/-- C8: the fired speed is the linear function
`MIN_POWER + (MAX_POWER - MIN_POWER) * charge` of the charge fraction, this
speed is the one given to the spawned player projectile (whose velocity is
the direction scaled by it), and charge 1 yields speed 40 while charge 0
yields speed 10. -/
theorem fireCannon_linear_speed :
    (∀ (charge : ℚ), fireSpeed charge = MIN_POWER + (MAX_POWER - MIN_POWER) * charge) ∧
    (∀ (charge ct : ℚ) (muzzle direction : Vec3) (ps : List Projectile),
        fireCannon muzzle direction charge ct ps =
          ps ++ [spawnProjectile muzzle direction (fireSpeed charge) ProjType.player ct] ∧
        (spawnProjectile muzzle direction (fireSpeed charge) ProjType.player ct).velocity =
          vscale (fireSpeed charge) direction) ∧
    fireSpeed 1 = 40 ∧ fireSpeed 0 = 10 := by
  refine ⟨fun charge => rfl, fun charge ct muzzle direction ps => ⟨rfl, rfl⟩, ?_, ?_⟩ <;>
    norm_num [fireSpeed, MIN_POWER, MAX_POWER]

/-- C9: for an out-of-range index (negative or at least the collection
length), `despawnProjectile` and `killProjectile` return the projectile
collection unchanged. -/
theorem removal_noop_on_invalid_index (i : ℤ) (ps : List Projectile)
    (h : i < 0 ∨ (ps.length : ℤ) ≤ i) :
    despawnProjectile i ps = ps ∧ killProjectile i ps = ps := by
  have hcond : ¬ (0 ≤ i ∧ i < (ps.length : ℤ)) := by
    rcases h with h | h
    · exact fun hc => absurd hc.1 (by omega)
    · exact fun hc => absurd hc.2 (by omega)
  exact ⟨by simp [despawnProjectile, hcond], by simp [killProjectile, hcond]⟩

theorem removal_noop_witness :
    despawnProjectile (-1) [sampleProjectile] = [sampleProjectile] ∧
    killProjectile (-1) [sampleProjectile] = [sampleProjectile] :=
  removal_noop_on_invalid_index (-1) [sampleProjectile] (Or.inl (by norm_num))

/-- C10: on every state reachable through the charging operations, and at
every current time, `updateCharging` returns a charge fraction in `[0, 1]`;
consequently any charge handed to `fireCannon` by `checkFire` gives a speed
in `[MIN_POWER, MAX_POWER] = [10, 40]`. -/
theorem updateCharging_in_unit_interval (ops : List InputOp) (ct : ℚ) :
    (0 ≤ (updateCharging ct (runInputOps ops)).2 ∧
      (updateCharging ct (runInputOps ops)).2 ≤ 1) ∧
    (∀ c : ℚ, (checkFire (runInputOps ops)).2 = some c →
      MIN_POWER ≤ fireSpeed c ∧ fireSpeed c ≤ MAX_POWER) := by
  have hinv := charge_bounds_invariant ops
  constructor
  · by_cases hc : (runInputOps ops).isCharging
    · simpa [updateCharging, hc] using
        clamp_nonneg_le_one ((ct - (runInputOps ops).chargeStartTime) / MAX_CHARGE_TIME)
    · simpa [updateCharging, hc] using hinv
  · intro c hc
    have hcv : c = (runInputOps ops).currentCharge := by
      by_cases hf : (runInputOps ops).isCharging = false ∧ (runInputOps ops).currentCharge > 0
      · simpa [checkFire, hf] using hc.symm
      · simp [checkFire, hf] at hc
    subst hcv
    constructor
    · simp only [fireSpeed, MIN_POWER, MAX_POWER]
      nlinarith [hinv.1, hinv.2]
    · simp only [fireSpeed, MIN_POWER, MAX_POWER]
      nlinarith [hinv.1, hinv.2]

theorem updateCharging_in_unit_interval_witness :
    MIN_POWER ≤ fireSpeed (2/3) ∧ fireSpeed (2/3) ≤ MAX_POWER :=
  (updateCharging_in_unit_interval [InputOp.mouseDown 0, InputOp.charging 1, InputOp.mouseUp] 9).2
    (2/3)
    (by norm_num [runInputOps, applyInputOp, onMouseDown, onMouseUp, updateCharging,
      checkFire, clamp, initInputState, MAX_CHARGE_TIME])

/-- C3 (amended): a live projectile is hard-removed from the collection by a
physics update exactly when, after integration, its `position.y` is below −1
or its age `currentTime − birthTime` strictly exceeds the 5-second maximum
lifetime; hence it is removed at the first update tick whose time is
strictly past spawn time + 5 s, and immediately at any update whose
integration leaves it below y = −1. -/
theorem projectile_expiry_exact (ct dt : ℚ) (p : Projectile) (hp : p.alive = true) :
    (updateProjectiles ct dt [p] = [] ↔
      ((integrateProjectile dt p).position.y < -1 ∨ ct - p.birthTime > MAX_LIFETIME)) ∧
    (ct - p.birthTime > MAX_LIFETIME → updateProjectiles ct dt [p] = []) ∧
    ((integrateProjectile dt p).position.y < -1 → updateProjectiles ct dt [p] = []) ∧
    (¬ ((integrateProjectile dt p).position.y < -1 ∨ ct - p.birthTime > MAX_LIFETIME) →
      updateProjectiles ct dt [p] = [integrateProjectile dt p]) := by
  have hbirth : (integrateProjectile dt p).birthTime = p.birthTime := rfl
  have halive : ¬ p.alive = false := by simp [hp]
  constructor
  · constructor
    · intro hempty
      by_contra hcond
      rw [not_or] at hcond
      simp [updateProjectiles, halive, hbirth, hcond.1, hcond.2] at hempty
    · intro hcond
      rcases hcond with h | h <;> simp [updateProjectiles, halive, hbirth, h]
  · refine ⟨fun h => by simp [updateProjectiles, halive, hbirth, h], ?_, ?_⟩
    · intro h
      simp [updateProjectiles, halive, hbirth, h]
    · intro hcond
      rw [not_or] at hcond
      simp [updateProjectiles, halive, hbirth, hcond.1, hcond.2]

theorem projectile_expiry_exact_witness :
    updateProjectiles 6 (1/60) [sampleProjectile] = [] :=
  (projectile_expiry_exact 6 (1/60) sampleProjectile rfl).2.1
    (by norm_num [sampleProjectile, MAX_LIFETIME])

/-- C3 counterexample: at a physics update whose current time is exactly
5.0 s after spawn (`age = 5`, not `> 5`), a live projectile well above the
ground is NOT removed — so a non-colliding projectile is not, in general,
removed at or before `t = 5.0 s` from spawn. -/
theorem projectile_alive_at_five_seconds :
    (5 : ℚ) - sampleProjectile.birthTime = 5 ∧
    updateProjectiles 5 (1/60) [sampleProjectile] =
      [integrateProjectile (1/60) sampleProjectile] ∧
    updateProjectiles 5 (1/60) [sampleProjectile] ≠ [] := by
  have h : updateProjectiles 5 (1/60) [sampleProjectile] =
      [integrateProjectile (1/60) sampleProjectile] :=
    (projectile_expiry_exact 5 (1/60) sampleProjectile rfl).2.2.2
      (by norm_num [sampleProjectile, integrateProjectile, vadd, vscale, GRAVITY, MAX_LIFETIME])
  exact ⟨by norm_num [sampleProjectile], h, by rw [h]; simp⟩

/-- C7: a non-boss target is destroyed on the first confirmed hit
(`onTargetHit` in main.js sets `destroyed` unconditionally, increments the
score, and `hitTarget` increments `hits`), while the boss (modelled from the
spec — no boss target exists under `src/`) increments `hits` on each
confirmed hit, stays non-destroyed after hits 1-3, and becomes destroyed
exactly on hit 4 (`hits >= maxHits` with the default `maxHits = 4`). -/
theorem target_destruction_rule :
    (∀ (score : ℕ) (t : Target),
        (onTargetHit score t).2.destroyed = true ∧
        (onTargetHit score t).1 = score + 1 ∧
        (hitTarget 0 t).hits = t.hits + 1) ∧
    (∀ (b : BossState), (bossConfirmedHit b).hits = b.hits + 1 ∧
      ((bossConfirmedHit b).destroyed = true ↔ b.maxHits ≤ b.hits + 1)) ∧
    ((bossConfirmedHit initBossState).hits = 1 ∧
      (bossConfirmedHit initBossState).destroyed = false) ∧
    ((bossConfirmedHit (bossConfirmedHit initBossState)).hits = 2 ∧
      (bossConfirmedHit (bossConfirmedHit initBossState)).destroyed = false) ∧
    ((bossConfirmedHit (bossConfirmedHit (bossConfirmedHit initBossState))).hits = 3 ∧
      (bossConfirmedHit (bossConfirmedHit (bossConfirmedHit initBossState))).destroyed = false) ∧
    ((bossConfirmedHit (bossConfirmedHit (bossConfirmedHit (bossConfirmedHit initBossState)))).hits = 4 ∧
      (bossConfirmedHit (bossConfirmedHit (bossConfirmedHit (bossConfirmedHit initBossState)))).destroyed = true) := by
  refine ⟨fun score t => ⟨rfl, rfl, rfl⟩,
    fun b => ⟨rfl, by simp [bossConfirmedHit]⟩, ?_, ?_, ?_, ?_⟩ <;>
    simp [bossConfirmedHit, initBossState]

lemma moveTarget_fire_fields (o : Oracle) (dt : ℚ) (t : Target) :
    (moveTarget o dt t).shootCooldown = t.shootCooldown ∧
    (moveTarget o dt t).shootInterval = t.shootInterval ∧
    (moveTarget o dt t).isMoving = t.isMoving := ⟨rfl, rfl, rfl⟩

lemma hitAnimStep_cooldown (o : Oracle) (ct : ℚ) (t : Target) :
    (hitAnimStep o ct t).shootCooldown = t.shootCooldown := by
  simp only [hitAnimStep]
  split_ifs <;> rfl

lemma cooldownTick_cooldown (dt : ℚ) (t : Target) :
    (cooldownTick dt t).shootCooldown =
      if t.shootCooldown > 0 then t.shootCooldown - dt else t.shootCooldown := by
  unfold cooldownTick
  split_ifs <;> rfl

lemma shootStep_no_fire (o : Oracle) (dt : ℚ) (pp : Option Vec3) (t : Target)
    (hdt : 0 ≤ dt) (hc : dt < t.shootCooldown) :
    (shootStep o dt pp t).2 = none ∧
    t.shootCooldown - dt ≤ (shootStep o dt pp t).1.shootCooldown := by
  have hpos : t.shootCooldown > 0 := lt_of_le_of_lt hdt hc
  cases pp with
  | none =>
    refine ⟨rfl, ?_⟩
    show t.shootCooldown - dt ≤ t.shootCooldown
    linarith
  | some player =>
    simp only [shootStep]
    by_cases hmov : t.isMoving = true
    · rw [if_pos hmov]
      have h1 : (cooldownTick dt t).shootCooldown = t.shootCooldown - dt := by
        rw [cooldownTick_cooldown, if_pos hpos]
      have hfire : ¬ (inDetectionRange player (cooldownTick dt t) = true ∧
          (cooldownTick dt t).shootCooldown ≤ 0) := by
        rintro ⟨-, hle⟩
        rw [h1] at hle
        linarith
      rw [if_neg hfire]
      exact ⟨rfl, by rw [h1]⟩
    · rw [if_neg hmov]
      refine ⟨rfl, ?_⟩
      show t.shootCooldown - dt ≤ t.shootCooldown
      linarith

/-- While strictly more wall-clock time than has elapsed still remains on the
cooldown, one frame cannot fire and can shrink the cooldown by at most
`dt`. -/
lemma updateTarget1_no_fire_step (o : Oracle) (ct dt : ℚ) (pp : Option Vec3)
    (t : Target) (hdt : 0 ≤ dt) (hc : dt < t.shootCooldown) :
    (updateTarget1 o ct dt pp t).2 = none ∧
    t.shootCooldown - dt ≤ (updateTarget1 o ct dt pp t).1.shootCooldown := by
  unfold updateTarget1
  by_cases hdes : t.destroyed = true
  · rw [if_pos hdes]
    refine ⟨rfl, ?_⟩
    show t.shootCooldown - dt ≤ t.shootCooldown
    linarith
  · rw [if_neg hdes]
    have hcool1 : (if t.isMoving = true then moveTarget o dt t else t).shootCooldown =
        t.shootCooldown := by
      split_ifs <;> simp [moveTarget]
    have hstep := shootStep_no_fire o dt pp (if t.isMoving = true then moveTarget o dt t else t)
      hdt (by rw [hcool1]; exact hc)
    rw [hcool1] at hstep
    exact ⟨hstep.1, by rw [hitAnimStep_cooldown]; exact hstep.2⟩

lemma sumDts_nonneg (ticks : List Tick) (h : ∀ k ∈ ticks, 0 ≤ k.dt) :
    0 ≤ sumDts ticks := by
  induction ticks with
  | nil => simp [sumDts]
  | cons k rest ih =>
    have hk := h k (by simp)
    have hr := ih (fun x hx => h x (List.mem_cons_of_mem _ hx))
    simp only [sumDts]
    linarith

/-- While the total elapsed time stays below the remaining cooldown, the
target never fires and the final cooldown is still at least the remainder. -/
lemma runTargetTicks_no_fire (o : Oracle) :
    ∀ (ticks : List Tick) (t : Target), (∀ k ∈ ticks, 0 ≤ k.dt) →
      sumDts ticks < t.shootCooldown →
      (runTargetTicks o ticks t).2 = 0 ∧
      t.shootCooldown - sumDts ticks ≤ (runTargetTicks o ticks t).1.shootCooldown := by
  intro ticks
  induction ticks with
  | nil =>
    intro t _ _
    simp [runTargetTicks, sumDts]
  | cons k rest ih =>
    intro t hdts hsum
    have hk : 0 ≤ k.dt := hdts k (by simp)
    have hrest : ∀ x ∈ rest, 0 ≤ x.dt := fun x hx => hdts x (List.mem_cons_of_mem _ hx)
    have hrest0 : 0 ≤ sumDts rest := sumDts_nonneg rest hrest
    simp only [sumDts] at hsum
    have hstep := updateTarget1_no_fire_step o k.ct k.dt k.pp t hk (by linarith)
    have hih := ih (updateTarget1 o k.ct k.dt k.pp t).1 hrest (by linarith [hstep.2])
    constructor
    · simp [runTargetTicks, hstep.1, hih.1]
    · simp only [runTargetTicks, sumDts]
      linarith [hih.2, hstep.2]

/-- C6: in the fire-control state machine, the cooldown is decremented by
`deltaTime` only while positive, a shot requires the player inside the
detection radius and a non-positive cooldown, and firing resets the cooldown
to `shootInterval`; consequently a target with `shootInterval = 7` that has
just fired (cooldown = 7) cannot fire again over any sequence of frames
whose total wall-clock time is less than 7 seconds, regardless of the player
position on each frame. -/
theorem fire_control_cooldown :
    (∀ (dt : ℚ) (t : Target),
      (cooldownTick dt t).shootCooldown =
        (if t.shootCooldown > 0 then t.shootCooldown - dt else t.shootCooldown)) ∧
    (∀ (o : Oracle) (dt : ℚ) (player : Vec3) (t : Target), t.isMoving = true →
      (((shootStep o dt (some player) t).2.isSome = true ↔
          (inDetectionRange player (cooldownTick dt t) = true ∧
            (cooldownTick dt t).shootCooldown ≤ 0)) ∧
        (shootStep o dt (some player) t).1.shootCooldown =
          (if inDetectionRange player (cooldownTick dt t) = true ∧
              (cooldownTick dt t).shootCooldown ≤ 0
            then t.shootInterval
            else (cooldownTick dt t).shootCooldown))) ∧
    (∀ (o : Oracle) (ticks : List Tick) (t : Target),
      t.shootInterval = 7 → t.shootCooldown = t.shootInterval →
      (∀ k ∈ ticks, 0 ≤ k.dt) → sumDts ticks < 7 →
      (runTargetTicks o ticks t).2 = 0) := by
  refine ⟨cooldownTick_cooldown, ?_, ?_⟩
  · intro o dt player t hmov
    simp only [shootStep]
    rw [if_pos hmov]
    have hint : (cooldownTick dt t).shootInterval = t.shootInterval := by
      unfold cooldownTick
      split_ifs <;> rfl
    split_ifs with hfire
    · exact ⟨by simp [hfire], by simp [hint]⟩
    · exact ⟨by simp [hfire], by simp⟩
  · intro o ticks t hint hcool hdts hsum
    exact (runTargetTicks_no_fire o ticks t hdts (by rw [hcool, hint]; exact hsum)).1

theorem fire_control_cooldown_witness :
    (runTargetTicks sampleOracle
      [⟨0, 3, some ⟨0, 0, 0⟩⟩, ⟨3, 3, some ⟨0, 0, 0⟩⟩] sampleTarget).2 = 0 :=
  fire_control_cooldown.2.2 sampleOracle
    [⟨0, 3, some ⟨0, 0, 0⟩⟩, ⟨3, 3, some ⟨0, 0, 0⟩⟩] sampleTarget rfl rfl
    (by intro k hk; fin_cases hk <;> norm_num)
    (by norm_num [sumDts])

lemma resolvePlayerHit_first_match (pos : Vec3) (r : ℚ) :
    ∀ (ts : List Target), 0 < countHittable pos r ts →
      resolvePlayerHit pos r ts =
        some (modifyAt destroyTarget (firstHittableIdx pos r ts) ts) := by
  intro ts
  induction ts with
  | nil => intro h; simp [countHittable] at h
  | cons t rest ih =>
    intro h
    by_cases hh : hittable pos r t
    · have hh2 : t.destroyed = false ∧ targetHitBy pos r t = true := by
        have h2 := hh
        simp only [hittable, Bool.and_eq_true, Bool.not_eq_true'] at h2
        exact h2
      simp [resolvePlayerHit, firstHittableIdx, hh2.1, hh2.2, hh, modifyAt]
    · have hcount : 0 < countHittable pos r rest := by
        simpa [countHittable, hh] using h
      have hrec := ih hcount
      by_cases hdes : t.destroyed
      · simp [resolvePlayerHit, firstHittableIdx, hdes, hh, hrec, modifyAt]
      · have hhit : ¬ targetHitBy pos r t = true := by
          intro hcon
          exact hh (by simp [hittable, hdes, hcon])
        simp [resolvePlayerHit, firstHittableIdx, hdes, hh, hhit, hrec, modifyAt]

/-- C4: during the collision pass, a live player projectile that intersects
two or more non-destroyed targets destroys exactly the first such target in
registry order (all other targets are untouched, even intersecting ones),
increments the score exactly once, and is itself removed from the projectile
collection exactly once; the pass neither touches the player health nor
triggers the game-over path. -/
theorem collision_first_match_tie_break (pp : Vec3) (p : Projectile)
    (ts : List Target) (sc : ℕ) (hp : ℤ)
    (halive : p.alive = true) (htype : p.type = ProjType.player)
    (hcount : 2 ≤ countHittable p.position p.radius ts) :
    checkCollisionsAux pp [p] ts sc hp =
      ([], modifyAt destroyTarget (firstHittableIdx p.position p.radius ts) ts,
        sc + 1, hp, false) := by
  have hres := resolvePlayerHit_first_match p.position p.radius ts (by omega)
  have halive2 : ¬ p.alive = false := by simp [halive]
  simp [checkCollisionsAux, halive2, htype, hres]

theorem collision_first_match_tie_break_witness :
    checkCollisionsAux ⟨100, 0, 100⟩ [samplePlayerProjectile] overlappingTargets 0 4 =
      ([], modifyAt destroyTarget
        (firstHittableIdx samplePlayerProjectile.position samplePlayerProjectile.radius
          overlappingTargets) overlappingTargets, 1, 4, false) :=
  collision_first_match_tie_break ⟨100, 0, 100⟩ samplePlayerProjectile
    overlappingTargets 0 4 rfl rfl
    (by norm_num [countHittable, hittable, targetHitBy, overlappingTargets,
      samplePlayerProjectile, sampleTarget, sphereVsAABB, clamp, vadd, TARGET_HEIGHT])

/-- C5 (amended): because `fireCannon` runs before `updateProjectiles` and
`checkCollisions` inside `updateGame`, a player projectile spawned by a fire
request IS integrated by the physics update of the very tick that created
it: starting from a state with a pending positive charge and no other
entities, the tick ends with the projectile list holding the already
integrated projectile (whenever the integrated position has not fallen below
the ground plane). -/
theorem player_projectile_integrated_same_tick (o : Oracle) (inp : FrameInput)
    (ct dt : ℚ) (ist : InputState) (hp : ℤ) (rsn : GameOverReason) (c : ℚ)
    (hcharging : ist.isCharging = false) (hcharge : ist.currentCharge = c)
    (hc : 0 < c)
    (hy : ¬ (integrateProjectile dt
        (spawnProjectile inp.muzzle inp.fireDir (fireSpeed c)
          ProjType.player ct)).position.y < -1) :
    (updateGame o inp ct dt
      { input := ist, projectiles := [], targets := [], treasures := [],
        score := 0, playerHealth := hp, gameActive := true,
        gameOverReason := rsn }).projectiles =
      [integrateProjectile dt
        (spawnProjectile inp.muzzle inp.fireDir (fireSpeed c) ProjType.player ct)] := by
  have hborn : (integrateProjectile dt
      (spawnProjectile inp.muzzle inp.fireDir (fireSpeed c) ProjType.player ct)).birthTime
        = ct := rfl
  have halive : (spawnProjectile inp.muzzle inp.fireDir (fireSpeed c)
      ProjType.player ct).alive = true := rfl
  have hcond : ¬ ((integrateProjectile dt
      (spawnProjectile inp.muzzle inp.fireDir (fireSpeed c)
        ProjType.player ct)).position.y < -1 ∨
      ct - (integrateProjectile dt
        (spawnProjectile inp.muzzle inp.fireDir (fireSpeed c)
          ProjType.player ct)).birthTime > MAX_LIFETIME) := by
    rw [not_or, hborn]
    exact ⟨hy, by norm_num [MAX_LIFETIME]⟩
  have hq_alive : (integrateProjectile dt
      (spawnProjectile inp.muzzle inp.fireDir (fireSpeed c)
        ProjType.player ct)).alive = true := rfl
  have hq_type : (integrateProjectile dt
      (spawnProjectile inp.muzzle inp.fireDir (fireSpeed c)
        ProjType.player ct)).type = ProjType.player := rfl
  have hA : updateCharging ct ist = (ist, ist.currentCharge) := by
    simp [updateCharging, hcharging]
  have hB : checkFire ist = ({ ist with currentCharge := 0 }, some c) := by
    simp [checkFire, hcharging, hcharge, hc]
  simp only [updateGame, hA, hB]
  simp [hc, fireCannon, updateProjectiles, halive, hq_alive, hq_type, hcond,
    updateTargets, updateTreasures, collectStep, checkCollisions,
    checkCollisionsAux, resolvePlayerHit, checkPlayerShipCollisions,
    anyShipCollision]

theorem player_projectile_integrated_same_tick_witness :
    (updateGame sampleOracle sampleFrameInput 0 1
      { input := sampleInputCharged, projectiles := [], targets := [],
        treasures := [], score := 0, playerHealth := 4, gameActive := true,
        gameOverReason := GameOverReason.timeout }).projectiles =
      [integrateProjectile 1
        (spawnProjectile sampleFrameInput.muzzle sampleFrameInput.fireDir
          (fireSpeed 1) ProjType.player 0)] :=
  player_projectile_integrated_same_tick sampleOracle sampleFrameInput 0 1
    sampleInputCharged 4 GameOverReason.timeout 1 rfl rfl (by norm_num)
    (by norm_num [integrateProjectile, spawnProjectile, fireSpeed,
      MIN_POWER, MAX_POWER, vadd, vscale, GRAVITY, sampleFrameInput])

/-- C5 counterexample: a concrete tick in which the projectile collection is
empty beforehand, the player has a pending full charge, and a target sits in
the path of the shot.  After the single `updateGame` call the target is
destroyed, the score is incremented, and the projectile has already been
consumed — the projectile spawned during this tick was integrated,
collision-tested, and removed in the same tick, not on the next one. -/
theorem projectile_spawned_this_tick_collides_this_tick :
    spawnTickState.projectiles = [] ∧
    (updateGame sampleOracle sampleFrameInput 0 1 spawnTickState).score = 1 ∧
    (updateGame sampleOracle sampleFrameInput 0 1 spawnTickState).projectiles = [] ∧
    ((updateGame sampleOracle sampleFrameInput 0 1 spawnTickState).targets.map
      Target.destroyed) = [true] := by
  have hpb : (ProjType.player = ProjType.boss) = False := by
    simp
  refine ⟨rfl, ?_⟩
  norm_num [hpb, updateGame, updateCharging, checkFire, fireCannon, spawnProjectile,
    fireSpeed, MIN_POWER, MAX_POWER, updateProjectiles, integrateProjectile,
    vadd, vscale, GRAVITY, MAX_LIFETIME, updateTargets, updateTarget1,
    moveTarget, shootStep, cooldownTick, inDetectionRange, fireDirection,
    jsNormalize, lengthSq, hitAnimStep, TARGET_HEIGHT, updateTreasures,
    collectStep, checkCollisions, checkCollisionsAux, resolvePlayerHit,
    targetHitBy, destroyTarget, sphereVsAABB, clamp, checkPlayerShipCollisions,
    anyShipCollision, distSq, vsub, sampleOracle, sampleFrameInput,
    sampleInputCharged, spawnTickState, spawnTickTarget, sampleTarget,
    ENEMY_PROJECTILE_SPEED, PROJECTILE_RADIUS]

end CannonShooter
